import Mathlib

/-!
Shallow embedding of the polarsou bill-splitting core in Lean 4.

Monetary values are modelled as rationals (ℚ); the JavaScript
`Math.round` (round half toward positive infinity) is Mathlib's `round`,
and the JavaScript remainder operator `%` on integers is `Int.tmod`
(truncating remainder, sign of the dividend).

Embedded source:
* `roundToTwoDecimals` from `src/utils/index.ts`;
* `MalaysianTaxCalculator` (`calculateTaxes`, `roundToSen`,
  `applyMalaysianRounding`) from the tax calculator module;
* `BillCalculator` (`calculateSession`, `calculateParticipantBalance`,
  `calculateItemContribution`, `calculateServiceCharge`,
  `calculateSummary`, `createEmptyResult`) and the free functions
  `generatePaymentInstructions` / `validateCalculation` from the
  calculations module;
* the legacy SST-only balance computation `getParticipantBalances`
  from `SessionPage.tsx`.

A JavaScript field that may be `undefined` (`BillItem.sstAmount`) is an
`Option ℚ`, and the JavaScript truthiness test on it (`item.sstAmount`)
is `sstTruthy` (`undefined` and `0` are falsy).
-/

/-- `roundToTwoDecimals` from `src/utils/index.ts`:
`Math.round(amount * 100) / 100`. -/
def roundToTwoDecimals (x : ℚ) : ℚ := (round (x * 100) : ℚ) / 100

namespace MalaysianTaxCalculator

/-- `SST_RATE = 0.06` (6% SST). -/
def SST_RATE : ℚ := 6 / 100

/-- `SERVICE_CHARGE_RATE = 0.10` (10% service charge). -/
def SERVICE_CHARGE_RATE : ℚ := 10 / 100

/-- `TaxableItem` input shape of the tax calculator. -/
structure TaxableItem where
  amount : ℚ
  hasSST : Bool
  hasServiceCharge : Bool
  isExempt : Bool

/-- The record returned by `MalaysianTaxCalculator.calculateTaxes`. -/
structure TaxTotals where
  subtotal : ℚ
  serviceChargeAmount : ℚ
  sstAmount : ℚ
  totalBeforeRounding : ℚ
  roundingAdjustment : ℚ
  finalTotal : ℚ

/-- `roundToSen`: `Math.round(amount * 100) / 100`. -/
def roundToSen (amount : ℚ) : ℚ := (round (amount * 100) : ℚ) / 100

/-- `applyMalaysianRounding`: convert to integer cents with `Math.round`,
take the last digit with the JavaScript `%` (truncating remainder
`Int.tmod`), and round to the base ten-cent, to base+5, or to base+10. -/
def applyMalaysianRounding (amount : ℚ) : ℚ :=
  let cents : ℤ := round (amount * 100)
  let lastDigit : ℤ := Int.tmod cents 10
  let roundedCents : ℤ :=
    if lastDigit ≤ 2 then cents - lastDigit
    else if lastDigit ≤ 7 then cents - lastDigit + 5
    else cents - lastDigit + 10
  (roundedCents : ℚ) / 100

/-- One step of the first loop of `calculateTaxes`: accumulates
`(subtotal, serviceChargeBase, sstBase)`.  Exempt items are added to the
subtotal only (`continue`). -/
def basesStep (acc : ℚ × ℚ × ℚ) (item : TaxableItem) : ℚ × ℚ × ℚ :=
  if item.isExempt then (acc.1 + item.amount, acc.2.1, acc.2.2)
  else (acc.1 + item.amount,
        acc.2.1 + (if item.hasServiceCharge then item.amount else 0),
        acc.2.2 + (if item.hasSST then item.amount else 0))

/-- The per-item SST term of the second loop of `calculateTaxes`:
`(item.amount + itemServiceCharge) * SST_RATE`. -/
def itemSst (item : TaxableItem) : ℚ :=
  (item.amount + (if item.hasServiceCharge then item.amount * SERVICE_CHARGE_RATE else 0))
    * SST_RATE

/-- One step of the second loop of `calculateTaxes`. -/
def sstStep (acc : ℚ) (item : TaxableItem) : ℚ :=
  if !item.isExempt && item.hasSST then acc + itemSst item else acc

/-- `MalaysianTaxCalculator.calculateTaxes`. -/
def calculateTaxes (items : List TaxableItem) : TaxTotals :=
  let bases := items.foldl basesStep (0, 0, 0)
  let subtotal := bases.1
  let serviceChargeBase := bases.2.1
  let serviceChargeAmount := roundToSen (serviceChargeBase * SERVICE_CHARGE_RATE)
  let sstAmount := roundToSen (items.foldl sstStep 0)
  let totalBeforeRounding := subtotal + serviceChargeAmount + sstAmount
  let finalTotal := applyMalaysianRounding totalBeforeRounding
  let roundingAdjustment := finalTotal - totalBeforeRounding
  { subtotal := roundToSen subtotal
    serviceChargeAmount := serviceChargeAmount
    sstAmount := sstAmount
    totalBeforeRounding := totalBeforeRounding
    roundingAdjustment := roundToSen roundingAdjustment
    finalTotal := finalTotal }

end MalaysianTaxCalculator

/-- A session participant (`Participant` in `types/index.ts`; only the
fields the calculation engine reads). -/
structure Participant where
  id : String
  name : String

/-- `TaxConfig` from the calculations module. -/
structure TaxConfig where
  sstRate : ℚ
  serviceChargeRate : ℚ
  applyServiceChargeToAll : Bool

/-- `DEFAULT_TAX_CONFIG = { sstRate: 0.06, serviceChargeRate: 0.10,
applyServiceChargeToAll: true }`. -/
def DEFAULT_TAX_CONFIG : TaxConfig :=
  { sstRate := 6 / 100, serviceChargeRate := 10 / 100, applyServiceChargeToAll := true }

/-- A bill line item (`BillItem`); `sstAmount` is `Option ℚ` because the
stored field can be absent (`undefined`). -/
structure BillItem where
  id : String
  name : String
  totalAmount : ℚ
  paidBy : String
  sharedBy : List String
  hasSst : Bool
  sstAmount : Option ℚ

/-- JavaScript truthiness of the numeric-or-undefined `sstAmount` field:
`undefined` and `0` are falsy. -/
def sstTruthy : Option ℚ → Bool
  | none => false
  | some v => v != 0

/-- `ItemContribution`: one item's contribution to one participant. -/
structure ItemContribution where
  itemId : String
  itemName : String
  contribution : ℚ
  sstContribution : ℚ
  serviceChargeContribution : ℚ

/-- `ParticipantBalance`.  The `participant` field is `Option` because
`createEmptyResult` builds balances without it (the legacy duplicate
fields `paid`/`owes`/`balance`, which merely repeat
`totalPaid`/`totalOwed`/`netAmount`, are not repeated here). -/
structure ParticipantBalance where
  participant : Option Participant
  participantId : String
  name : String
  totalOwed : ℚ
  totalPaid : ℚ
  netAmount : ℚ
  itemBreakdown : List ItemContribution

instance : Inhabited ParticipantBalance := ⟨⟨none, "", "", 0, 0, 0, []⟩⟩

/-- The part of a `Session` the engine reads. -/
structure Session where
  participants : List Participant
  items : List BillItem

/-- `BillCalculator.calculateServiceCharge`:
`roundToTwoDecimals(amount * taxConfig.serviceChargeRate)`. -/
def calculateServiceCharge (cfg : TaxConfig) (amount : ℚ) : ℚ :=
  roundToTwoDecimals (amount * cfg.serviceChargeRate)

/-- `BillCalculator.calculateItemContribution`.  A participant not in
`sharedBy` gets the all-zero contribution (the early return); otherwise
the base share is `totalAmount / |sharedBy|`, the SST share is taken
from the stored `sstAmount` (guarded by its truthiness), and the
service-charge share is divided by the number of session participants
when `applyServiceChargeToAll` and by `|sharedBy|` otherwise. -/
def calculateItemContribution (cfg : TaxConfig) (p : Participant) (item : BillItem)
    (totalParticipants : ℕ) : ItemContribution :=
  if item.sharedBy.contains p.id then
    let shareCount : ℚ := item.sharedBy.length
    let baseContribution := roundToTwoDecimals (item.totalAmount / shareCount)
    let sstContribution :=
      if item.hasSst && sstTruthy item.sstAmount then
        roundToTwoDecimals (item.sstAmount.getD 0 / shareCount)
      else 0
    let serviceChargeAmount := calculateServiceCharge cfg item.totalAmount
    let serviceChargeContribution :=
      if cfg.applyServiceChargeToAll then
        roundToTwoDecimals (serviceChargeAmount / totalParticipants)
      else roundToTwoDecimals (serviceChargeAmount / shareCount)
    { itemId := item.id, itemName := item.name, contribution := baseContribution
      sstContribution := sstContribution
      serviceChargeContribution := serviceChargeContribution }
  else
    { itemId := item.id, itemName := item.name, contribution := 0
      sstContribution := 0, serviceChargeContribution := 0 }

/-- The payer-credit part of the loop body of
`calculateParticipantBalance`: when `item.paidBy === participant.id` the
payer is credited `totalAmount`, plus the stored `sstAmount` when
truthy, plus the item's service charge. -/
def paidCredit (cfg : TaxConfig) (p : Participant) (item : BillItem) : ℚ :=
  if item.paidBy == p.id then
    item.totalAmount
      + (if item.hasSst && sstTruthy item.sstAmount then item.sstAmount.getD 0 else 0)
      + calculateServiceCharge cfg item.totalAmount
  else 0

/-- Accumulator of the `items.forEach` loop in
`calculateParticipantBalance`. -/
structure BalanceAcc where
  totalOwed : ℚ
  totalPaid : ℚ
  itemBreakdown : List ItemContribution

/-- One iteration of the `items.forEach` loop: the owed side is added
only when `contribution.contribution > 0`, the paid side whenever this
participant paid for the item. -/
def balStep (cfg : TaxConfig) (p : Participant) (totalParticipants : ℕ)
    (acc : BalanceAcc) (item : BillItem) : BalanceAcc :=
  let c := calculateItemContribution cfg p item totalParticipants
  let acc1 :=
    if 0 < c.contribution then
      { acc with
          totalOwed := acc.totalOwed + c.contribution + c.sstContribution
            + c.serviceChargeContribution
          itemBreakdown := acc.itemBreakdown ++ [c] }
    else acc
  { acc1 with totalPaid := acc1.totalPaid + paidCredit cfg p item }

/-- `BillCalculator.calculateParticipantBalance`. -/
def calculateParticipantBalance (cfg : TaxConfig) (p : Participant)
    (items : List BillItem) (totalParticipants : ℕ) : ParticipantBalance :=
  let r := items.foldl (balStep cfg p totalParticipants) ⟨0, 0, []⟩
  { participant := some p, participantId := p.id, name := p.name
    totalOwed := roundToTwoDecimals r.totalOwed
    totalPaid := roundToTwoDecimals r.totalPaid
    netAmount := roundToTwoDecimals (r.totalOwed - r.totalPaid)
    itemBreakdown := r.itemBreakdown }

/-- The `summary` record of a `CalculationResult`. -/
structure Summary where
  totalAmount : ℚ
  totalSst : ℚ
  totalServiceCharge : ℚ
  itemCount : ℕ

/-- `BillCalculator.calculateSummary`. -/
def calculateSummary (cfg : TaxConfig) (items : List BillItem) : Summary :=
  let r := items.foldl
    (fun (acc : ℚ × ℚ × ℚ) item =>
      (acc.1 + item.totalAmount,
       acc.2.1 + (if item.hasSst && sstTruthy item.sstAmount then item.sstAmount.getD 0 else 0),
       acc.2.2 + calculateServiceCharge cfg item.totalAmount))
    (0, 0, 0)
  { totalAmount := roundToTwoDecimals r.1, totalSst := roundToTwoDecimals r.2.1
    totalServiceCharge := roundToTwoDecimals r.2.2, itemCount := items.length }

/-- `CalculationResult`. -/
structure CalculationResult where
  participants : List ParticipantBalance
  summary : Summary

/-- `BillCalculator.createEmptyResult`. -/
def createEmptyResult (ps : List Participant) : CalculationResult :=
  { participants := ps.map (fun p =>
      { participant := none, participantId := p.id, name := p.name
        totalOwed := 0, totalPaid := 0, netAmount := 0, itemBreakdown := [] })
    summary := { totalAmount := 0, totalSst := 0, totalServiceCharge := 0, itemCount := 0 } }

/-- `BillCalculator.calculateSession`. -/
def calculateSession (cfg : TaxConfig) (s : Session) : CalculationResult :=
  if s.participants.length == 0 || s.items.length == 0 then
    createEmptyResult s.participants
  else
    { participants := s.participants.map
        (fun p => calculateParticipantBalance cfg p s.items s.participants.length)
      summary := calculateSummary cfg s.items }

/-- `validateCalculation`: the calculation module's own validity check —
`true` iff `|sum totalOwed - sum totalPaid| <= 0.01` and
`|sum netAmount| <= 0.01` (the source collects an error message for each
violated check and reports `isValid = errors.length === 0`). -/
def validateCalculation (result : CalculationResult) : Bool :=
  !(|result.participants.foldl (fun acc p => acc + p.totalOwed) 0
      - result.participants.foldl (fun acc p => acc + p.totalPaid) 0| > 1 / 100)
  && !(|result.participants.foldl (fun acc p => acc + p.netAmount) 0| > 1 / 100)

/-- A settlement transfer `{ from, to, amount }` emitted by
`generatePaymentInstructions` (`from`/`to` are Lean keywords, hence
`fromName`/`toName`). -/
structure PaymentInstruction where
  fromName : String
  toName : String
  amount : ℚ

/-- `debtor.participant.name` / `creditor.participant.name` as read by
`generatePaymentInstructions` (balances built by
`calculateParticipantBalance` always carry their participant). -/
def balanceName (b : ParticipantBalance) : String :=
  (b.participant.map Participant.name).getD ""

/-- The `while (debtors.length > 0 && creditors.length > 0)` loop of
`generatePaymentInstructions`, with explicit fuel.  Each iteration takes
the first remaining debtor and creditor, emits
`min(|debtor.netAmount|, creditor.netAmount)` (rounded to two decimals
in the instruction, unrounded in the balance updates), and drops a side
whose updated balance is within `0.01` of zero.
`gpiLoop_fuel_stable` shows that fuel `debtors.length + creditors.length`
is always enough, i.e. that the source's unbounded loop terminates. -/
def gpiLoop : ℕ → List ParticipantBalance → List ParticipantBalance → List PaymentInstruction
  | 0, _, _ => []
  | _ + 1, [], _ => []
  | _ + 1, _, [] => []
  | fuel + 1, d :: ds, c :: cs =>
    let payment := min |d.netAmount| c.netAmount
    let dNet := d.netAmount + payment
    let cNet := c.netAmount - payment
    let ds' := if |dNet| < 1 / 100 then ds else { d with netAmount := dNet } :: ds
    let cs' := if |cNet| < 1 / 100 then cs else { c with netAmount := cNet } :: cs
    ⟨balanceName d, balanceName c, roundToTwoDecimals payment⟩ :: gpiLoop fuel ds' cs'

/-- `generatePaymentInstructions` (the exported settlement-transfer
function): debtors are the balances with `netAmount < 0`, creditors
those with `netAmount > 0` (the `.map(b => ({ ...b }))` shallow copies
are identities on immutable values; `generatePaymentInstructionsST`
below makes the heap explicit). -/
def generatePaymentInstructions (balances : List ParticipantBalance) :
    List PaymentInstruction :=
  let debtors := balances.filter (fun b => b.netAmount < 0)
  let creditors := balances.filter (fun b => 0 < b.netAmount)
  gpiLoop (debtors.length + creditors.length) debtors creditors

/-- A heap of JavaScript balance objects; object references are indices. -/
abbrev Store := List ParticipantBalance

/-- In-place mutation `obj.netAmount = v` of the object at address `a`. -/
def setNet (σ : Store) (a : ℕ) (v : ℚ) : Store :=
  σ.set a { σ.getD a default with netAmount := v }

/-- The matching loop of `generatePaymentInstructions` again, this time
with the mutated balance objects living in an explicit store and the
debtor/creditor queues holding their addresses. -/
def gpiLoopST : ℕ → Store → List ℕ → List ℕ → List PaymentInstruction × Store
  | 0, σ, _, _ => ([], σ)
  | _ + 1, σ, [], _ => ([], σ)
  | _ + 1, σ, _, [] => ([], σ)
  | fuel + 1, σ, da :: das, ca :: cas =>
    let d := σ.getD da default
    let c := σ.getD ca default
    let payment := min |d.netAmount| c.netAmount
    let σ' := setNet (setNet σ da (d.netAmount + payment)) ca (c.netAmount - payment)
    let das' := if |d.netAmount + payment| < 1 / 100 then das else da :: das
    let cas' := if |c.netAmount - payment| < 1 / 100 then cas else ca :: cas
    let r := gpiLoopST fuel σ' das' cas'
    (⟨balanceName d, balanceName c, roundToTwoDecimals payment⟩ :: r.1, r.2)

/-- `generatePaymentInstructions` with its heap effects made explicit:
the argument array holds references `addrs` into the store `σ`; the
`filter(...).map(b => ({ ...b }))` lines allocate shallow copies at
fresh addresses, and the loop mutates only those copies.  Returns the
instruction list and the final store. -/
def generatePaymentInstructionsST (σ : Store) (addrs : List ℕ) :
    List PaymentInstruction × Store :=
  let balances := addrs.map (fun a => σ.getD a default)
  let debtorVals := balances.filter (fun b => b.netAmount < 0)
  let creditorVals := balances.filter (fun b => 0 < b.netAmount)
  let σ1 := σ ++ debtorVals ++ creditorVals
  let das := (List.range debtorVals.length).map (fun i => σ.length + i)
  let cas := (List.range creditorVals.length).map (fun i => σ.length + debtorVals.length + i)
  gpiLoopST (das.length + cas.length) σ1 das cas

/-- The item shape read by the legacy balance computation in
`SessionPage.tsx` (`amount` instead of `totalAmount`, no stored
`sstAmount`). -/
structure PageItem where
  amount : ℚ
  paidBy : String
  sharedBy : List String
  hasSst : Bool

/-- The balance rows produced by `SessionPage.getParticipantBalances`. -/
structure PageBalance where
  id : String
  name : String
  paid : ℚ
  owes : ℚ
  balance : ℚ

/-- `item.hasSst ? amount * 1.06 : amount` from
`SessionPage.getParticipantBalances`. -/
def pageItemTotal (item : PageItem) : ℚ :=
  if item.hasSst then item.amount * (106 / 100) else item.amount

/-- `SessionPage.getParticipantBalances`, the legacy SST-only
calculation path: `paid` sums the tax-inclusive totals of the items this
participant paid for, `owes` sums `itemTotal / (sharedBy.length || 1)`
over the items shared by this participant, `balance = paid - owes`
(`Number(x.toFixed(2))` is two-decimal rounding). -/
def getParticipantBalances (participants : List Participant) (items : List PageItem) :
    List PageBalance :=
  participants.map (fun p =>
    let paid := ((items.filter (fun item => item.paidBy == p.id)).map pageItemTotal).sum
    let owes := ((items.filter (fun item => item.sharedBy.contains p.id)).map
      (fun item =>
        pageItemTotal item
          / (if item.sharedBy.length == 0 then 1 else (item.sharedBy.length : ℚ)))).sum
    { id := p.id, name := p.name, paid := roundToTwoDecimals paid
      owes := roundToTwoDecimals owes, balance := roundToTwoDecimals (paid - owes) })

/-- The two participants of the service-charge-gap counterexample
session. -/
def gapP1 : Participant := ⟨"1", "P1"⟩

def gapP2 : Participant := ⟨"2", "P2"⟩

/-- An item paid and consumed by participant 1 alone. -/
def gapItem : BillItem := ⟨"i1", "Dinner", 100, "1", ["1"], false, some 0⟩

/-- Two participants, one RM100 item shared only by its payer: under the
default configuration the 10% service charge is credited in full to the
payer but only half of it is ever owed back. -/
def gapSession : Session := ⟨[gapP1, gapP2], [gapItem]⟩

/-- Participants of the end-to-end test scenario. -/
def alice : Participant := ⟨"1", "Alice"⟩

def bob : Participant := ⟨"2", "Bob"⟩

def charlie : Participant := ⟨"3", "Charlie"⟩

/-- The Pizza item of the end-to-end test scenario (`hasSst = false`, so
its derived stored SST amount is 0). -/
def pizza : BillItem := ⟨"1", "Pizza", 30, "1", ["1", "2", "3"], false, some 0⟩

/-- The Drinks item of the end-to-end test scenario (`hasSst = true`;
the stored `sstAmount` is the derived `15 * 0.06 = 0.9`). -/
def drinks : BillItem := ⟨"2", "Drinks", 15, "2", ["2", "3"], true, some (9 / 10)⟩

/-- The end-to-end scenario session. -/
def endToEndSession : Session := ⟨[alice, bob, charlie], [pizza, drinks]⟩

/-- The same two items in the legacy `SessionPage` item shape. -/
def pagePizza : PageItem := ⟨30, "1", ["1", "2", "3"], false⟩

def pageDrinks : PageItem := ⟨15, "2", ["2", "3"], true⟩

/-- An item whose `sharedBy` list is empty. -/
def orphanItem : BillItem := ⟨"i2", "Orphan", 50, "1", [], false, none⟩

/-- An item flagged `hasSst` whose stored `sstAmount` is `0`. -/
def sstZeroItem : BillItem := ⟨"z", "Zed", 50, "1", ["1"], true, some 0⟩

/-- A balance with positive net (owes the group, by the documented sign
convention `netAmount = totalOwed - totalPaid`). -/
def posBalance : ParticipantBalance :=
  ⟨some ⟨"a", "Ada"⟩, "a", "Ada", 10, 5, 5, []⟩

/-- A balance with negative net (the group owes them). -/
def negBalance : ParticipantBalance :=
  ⟨some ⟨"b", "Ben"⟩, "b", "Ben", 0, 5, -5, []⟩


namespace MalaysianTaxCalculator

theorem foldl_sstStep_eq (items : List TaxableItem) (a : ℚ) :
    items.foldl sstStep a
      = a + ((items.filter (fun i => !i.isExempt && i.hasSST)).map itemSst).sum := by
  induction items generalizing a with
  | nil => simp
  | cons i is ih =>
    rw [List.foldl_cons, List.filter_cons, ih]
    by_cases h : (!i.isExempt && i.hasSST) = true
    · simp [sstStep, h, add_assoc]
    · simp only [Bool.not_eq_true] at h
      simp [sstStep, h]

theorem foldl_basesStep_fst (items : List TaxableItem) (acc : ℚ × ℚ × ℚ) :
    (items.foldl basesStep acc).1 = acc.1 + (items.map TaxableItem.amount).sum := by
  induction items generalizing acc with
  | nil => simp
  | cons i is ih =>
    rw [List.foldl_cons, ih]
    by_cases h : i.isExempt <;> simp [basesStep, h, add_assoc]

theorem foldl_basesStep_snd (items : List TaxableItem) (acc : ℚ × ℚ × ℚ) :
    (items.foldl basesStep acc).2.1
      = acc.2.1
        + ((items.filter (fun i => !i.isExempt && i.hasServiceCharge)).map
            TaxableItem.amount).sum := by
  induction items generalizing acc with
  | nil => simp
  | cons i is ih =>
    rw [List.foldl_cons, List.filter_cons, ih]
    by_cases hex : i.isExempt
    · simp [basesStep, hex]
    · by_cases hsc : i.hasServiceCharge <;>
        simp [basesStep, hex, hsc, add_assoc]

/-- C5: `calculateTaxes` computes SST per item (for each non-exempt item
with `hasSST`, `(amount + (hasServiceCharge ? amount * 0.10 : 0)) * 0.06`),
sums those terms and rounds the sum to two decimals; the single item
`{amount: 100, hasSST, hasServiceCharge, not exempt}` yields
`serviceChargeAmount = 10`, `sstAmount = 6.6` and `finalTotal = 116.6`;
and an exempt item contributes to the subtotal but to neither tax
amount, regardless of its flags. -/
theorem c5_sst_per_item :
    (∀ items : List TaxableItem,
        (calculateTaxes items).sstAmount
          = roundToSen (((items.filter (fun i => !i.isExempt && i.hasSST)).map itemSst).sum))
    ∧ (calculateTaxes [⟨100, true, true, false⟩]).serviceChargeAmount = 10
    ∧ (calculateTaxes [⟨100, true, true, false⟩]).sstAmount = 66 / 10
    ∧ (calculateTaxes [⟨100, true, true, false⟩]).finalTotal = 1166 / 10
    ∧ (∀ (items : List TaxableItem) (i : TaxableItem), i.isExempt = true →
        (calculateTaxes (i :: items)).sstAmount = (calculateTaxes items).sstAmount
        ∧ (calculateTaxes (i :: items)).serviceChargeAmount
            = (calculateTaxes items).serviceChargeAmount
        ∧ (calculateTaxes (i :: items)).subtotal
            = roundToSen (i.amount + (items.map TaxableItem.amount).sum)) := by
  refine ⟨fun items => ?_, ?_, ?_, ?_, fun items i hex => ⟨?_, ?_, ?_⟩⟩
  · simp only [calculateTaxes, foldl_sstStep_eq, zero_add]
  · norm_num [calculateTaxes, basesStep, sstStep, itemSst, roundToSen, round_eq,
      SERVICE_CHARGE_RATE, SST_RATE]
  · norm_num [calculateTaxes, basesStep, sstStep, itemSst, roundToSen, round_eq,
      SERVICE_CHARGE_RATE, SST_RATE]
  · norm_num [calculateTaxes, basesStep, sstStep, itemSst, roundToSen, round_eq,
      applyMalaysianRounding, Int.tmod, SERVICE_CHARGE_RATE, SST_RATE]
  · simp only [calculateTaxes, foldl_sstStep_eq, zero_add, List.filter_cons, hex,
      Bool.not_true, Bool.false_and, if_neg (by simp : ¬(false = true))]
  · simp only [calculateTaxes, foldl_basesStep_snd, zero_add, List.filter_cons, hex,
      Bool.not_true, Bool.false_and, if_neg (by simp : ¬(false = true))]
  · simp only [calculateTaxes, foldl_basesStep_fst, zero_add, List.map_cons, List.sum_cons]

/-- Witness for the exempt-item clause of `c5_sst_per_item` at the
concrete exempt item `{amount: 100, hasSST, hasServiceCharge, exempt}`. -/
theorem c5_sst_per_item_witness :
    (calculateTaxes [⟨100, true, true, true⟩]).sstAmount = (calculateTaxes []).sstAmount
    ∧ (calculateTaxes [⟨100, true, true, true⟩]).serviceChargeAmount
        = (calculateTaxes []).serviceChargeAmount
    ∧ (calculateTaxes [⟨100, true, true, true⟩]).subtotal
        = roundToSen (100 + (([] : List TaxableItem).map TaxableItem.amount).sum) :=
  c5_sst_per_item.2.2.2.2 [] ⟨100, true, true, true⟩ rfl

end MalaysianTaxCalculator

namespace MalaysianTaxCalculator

theorem digitRule_eq_of_nonneg (c : ℤ) (hc : 0 ≤ c) :
    (if Int.tmod c 10 ≤ 2 then c - Int.tmod c 10
     else if Int.tmod c 10 ≤ 7 then c - Int.tmod c 10 + 5
     else c - Int.tmod c 10 + 10)
    = 5 * round ((c : ℚ) / 5) := by
  rw [Int.tmod_eq_emod hc (by norm_num : (0:ℤ) ≤ 10)]
  have hd0 : 0 ≤ c % 10 := Int.emod_nonneg c (by norm_num)
  have hd10 : c % 10 < 10 := Int.emod_lt_of_pos c (by norm_num)
  obtain ⟨q, d, rfl, hd0, hd10⟩ : ∃ q d, c = 10 * q + d ∧ 0 ≤ d ∧ d < 10 :=
    ⟨c / 10, c % 10, (Int.ediv_add_emod c 10).symm, hd0, hd10⟩
  have hmod : (10 * q + d) % 10 = d := by omega
  rw [hmod]
  have hround : round (((10 * q + d : ℤ) : ℚ) / 5) = 2 * q + round ((d : ℚ) / 5) := by
    have h1 : ((10 * q + d : ℤ) : ℚ) / 5 = ((2 * q : ℤ) : ℚ) + (d : ℚ) / 5 := by
      push_cast; ring
    rw [h1, round_int_add]
  rw [hround]
  interval_cases d <;> norm_num [round_eq] <;> omega

theorem round_div_five_stable (y : ℚ) :
    round ((round y : ℚ) / 5) = round (y / 5) := by
  have hm1 : ((round (y / 5) : ℤ) : ℚ) ≤ y / 5 + 1 / 2 := by
    rw [round_eq]; exact Int.floor_le _
  have hm2 : y / 5 + 1 / 2 < (round (y / 5) : ℚ) + 1 := by
    rw [round_eq]; exact Int.lt_floor_add_one _
  have hlow : 5 * round (y / 5) - 2 ≤ round y := by
    rw [round_eq y]
    apply Int.le_floor.mpr
    push_cast
    linarith
  have hhigh : round y ≤ 5 * round (y / 5) + 2 := by
    have h3 : round y < 5 * round (y / 5) + 3 := by
      rw [round_eq y]
      apply Int.floor_lt.mpr
      push_cast
      linarith
    omega
  rw [round_eq ((round y : ℚ) / 5)]
  apply (Int.floor_eq_iff).mpr
  constructor
  · have h' : ((5 * round (y / 5) - 2 : ℤ) : ℚ) ≤ ((round y : ℤ) : ℚ) := by
      exact_mod_cast hlow
    push_cast at h'
    linarith
  · have h' : ((round y : ℤ) : ℚ) ≤ ((5 * round (y / 5) + 2 : ℤ) : ℚ) := by
      exact_mod_cast hhigh
    push_cast at h'
    linarith

end MalaysianTaxCalculator

namespace MalaysianTaxCalculator

/-- C6 (amended to nonnegative amounts): for every amount `x ≥ 0`,
`applyMalaysianRounding x` is exactly `round(20 * x) / 20`, i.e. the
nearest multiple of 0.05 with ties rounded up; hence the output is a
multiple of 0.05 and differs from the input by at most 0.025.  The
spec's concrete examples also hold. -/
theorem c6_amended :
    (∀ x : ℚ, 0 ≤ x →
        applyMalaysianRounding x = (round (20 * x) : ℚ) / 20
        ∧ (∃ k : ℤ, applyMalaysianRounding x = (k : ℚ) / 20)
        ∧ |applyMalaysianRounding x - x| ≤ 1 / 40)
    ∧ applyMalaysianRounding (1001 / 100) = 10
    ∧ applyMalaysianRounding (1003 / 100) = 1005 / 100
    ∧ applyMalaysianRounding (1008 / 100) = 1010 / 100
    ∧ applyMalaysianRounding (3 / 100) = 5 / 100 := by
  have key : ∀ x : ℚ, 0 ≤ x → applyMalaysianRounding x = (round (20 * x) : ℚ) / 20 := by
    intro x hx
    have hc : (0 : ℤ) ≤ round (x * 100) := by
      rw [round_eq]
      exact Int.le_floor.mpr (by push_cast; linarith)
    show ((if Int.tmod (round (x * 100)) 10 ≤ 2 then
            round (x * 100) - Int.tmod (round (x * 100)) 10
          else if Int.tmod (round (x * 100)) 10 ≤ 7 then
            round (x * 100) - Int.tmod (round (x * 100)) 10 + 5
          else round (x * 100) - Int.tmod (round (x * 100)) 10 + 10 : ℤ) : ℚ) / 100
        = (round (20 * x) : ℚ) / 20
    rw [digitRule_eq_of_nonneg _ hc, round_div_five_stable (x * 100)]
    have h20 : x * 100 / 5 = 20 * x := by ring
    rw [h20]
    push_cast
    ring
  refine ⟨fun x hx => ⟨key x hx, ⟨round (20 * x), key x hx⟩, ?_⟩, ?_, ?_, ?_, ?_⟩
  · rw [key x hx]
    have habs := abs_sub_round (20 * x)
    have h1 : (round (20 * x) : ℚ) / 20 - x = (round (20 * x) - 20 * x) / 20 := by ring
    rw [h1, abs_div]
    rw [abs_sub_comm] at habs
    have h2 : |(20 : ℚ)| = 20 := by norm_num
    rw [h2]
    linarith
  · norm_num [applyMalaysianRounding, round_eq, Int.tmod]
  · norm_num [applyMalaysianRounding, round_eq, Int.tmod]
  · norm_num [applyMalaysianRounding, round_eq, Int.tmod]
  · norm_num [applyMalaysianRounding, round_eq, Int.tmod]

/-- Witness for `c6_amended` at the concrete nonnegative input `10.03`. -/
theorem c6_amended_witness :
    applyMalaysianRounding (1003 / 100) = (round (20 * (1003 / 100 : ℚ)) : ℚ) / 20
    ∧ (∃ k : ℤ, applyMalaysianRounding (1003 / 100) = (k : ℚ) / 20)
    ∧ |applyMalaysianRounding (1003 / 100) - 1003 / 100| ≤ 1 / 40 :=
  c6_amended.1 (1003 / 100) (by norm_num)

/-- C6 counterexample: at the negative amount `-0.03` the digit rule
(through the JavaScript `%`, which keeps the dividend's sign) returns
`0`, which is `0.03 > 0.025` away from the input and is not the nearest
multiple of 0.05 (that would be `-0.05`). -/
theorem c6_counterexample :
    applyMalaysianRounding (-3 / 100) = 0
    ∧ 1 / 40 < |applyMalaysianRounding (-3 / 100) - (-3 / 100)| := by
  have h : applyMalaysianRounding (-3 / 100) = 0 := by
    have hround : round ((-3 / 100 : ℚ) * 100) = -3 := by
      norm_num [round_eq]
    have htmod : Int.tmod (-3) 10 = -3 := by decide
    show ((if Int.tmod (round ((-3 / 100 : ℚ) * 100)) 10 ≤ 2 then
            round ((-3 / 100 : ℚ) * 100) - Int.tmod (round ((-3 / 100 : ℚ) * 100)) 10
          else if Int.tmod (round ((-3 / 100 : ℚ) * 100)) 10 ≤ 7 then
            round ((-3 / 100 : ℚ) * 100) - Int.tmod (round ((-3 / 100 : ℚ) * 100)) 10 + 5
          else round ((-3 / 100 : ℚ) * 100) - Int.tmod (round ((-3 / 100 : ℚ) * 100)) 10 + 10
          : ℤ) : ℚ) / 100 = 0
    rw [hround, htmod]
    norm_num
  refine ⟨h, ?_⟩
  rw [h]
  have habs : |(0 : ℚ) - -3 / 100| = 3 / 100 := by
    rw [show (0 : ℚ) - -3 / 100 = 3 / 100 by ring]
    exact abs_of_pos (by norm_num)
  rw [habs]
  norm_num

end MalaysianTaxCalculator

theorem gpiLoop_nil_left (fuel : ℕ) (cs : List ParticipantBalance) :
    gpiLoop fuel [] cs = [] := by
  cases fuel <;> cases cs <;> rfl

theorem gpiLoop_nil_right (fuel : ℕ) (ds : List ParticipantBalance) :
    gpiLoop fuel ds [] = [] := by
  cases fuel <;> cases ds <;> rfl

theorem gpiLoop_cons (fuel : ℕ) (d c : ParticipantBalance)
    (ds cs : List ParticipantBalance) :
    gpiLoop (fuel + 1) (d :: ds) (c :: cs)
      = ⟨balanceName d, balanceName c,
          roundToTwoDecimals (min |d.netAmount| c.netAmount)⟩
        :: gpiLoop fuel
          (if |d.netAmount + min |d.netAmount| c.netAmount| < 1 / 100 then ds
           else { d with netAmount := d.netAmount + min |d.netAmount| c.netAmount } :: ds)
          (if |c.netAmount - min |d.netAmount| c.netAmount| < 1 / 100 then cs
           else { c with netAmount := c.netAmount - min |d.netAmount| c.netAmount } :: cs) :=
  rfl

theorem gpi_min_cancel (d c : ParticipantBalance)
    (hd : d.netAmount < 0) (_hc : 0 < c.netAmount) :
    d.netAmount + min |d.netAmount| c.netAmount = 0
    ∨ c.netAmount - min |d.netAmount| c.netAmount = 0 := by
  rcases le_total |d.netAmount| c.netAmount with h | h
  · left
    rw [min_eq_left h, abs_of_neg hd]
    ring
  · right
    rw [min_eq_right h]
    ring

theorem gpi_dNet_nonpos (d c : ParticipantBalance) (hd : d.netAmount < 0) :
    d.netAmount + min |d.netAmount| c.netAmount ≤ 0 := by
  rw [abs_of_neg hd]
  have h := min_le_left (-d.netAmount) c.netAmount
  linarith

theorem gpi_cNet_nonneg (d c : ParticipantBalance) :
    0 ≤ c.netAmount - min |d.netAmount| c.netAmount := by
  have h := min_le_right |d.netAmount| c.netAmount
  linarith

theorem gpiLoop_fuel_stable :
    ∀ (n fuel : ℕ) (ds cs : List ParticipantBalance),
      (∀ b ∈ ds, b.netAmount < 0) → (∀ b ∈ cs, 0 < b.netAmount) →
      ds.length + cs.length ≤ n → n ≤ fuel →
      gpiLoop fuel ds cs = gpiLoop n ds cs := by
  intro n
  induction n with
  | zero =>
    intro fuel ds cs _ _ hlen _
    have hds : ds = [] := List.eq_nil_of_length_eq_zero (by omega)
    subst hds
    rw [gpiLoop_nil_left, gpiLoop_nil_left]
  | succ n ih =>
    intro fuel ds cs hds hcs hlen hfuel
    match ds, cs with
    | [], cs => rw [gpiLoop_nil_left, gpiLoop_nil_left]
    | d :: ds0, [] => rw [gpiLoop_nil_right, gpiLoop_nil_right]
    | d :: ds0, c :: cs0 =>
      obtain ⟨f, rfl⟩ : ∃ f, fuel = f + 1 := ⟨fuel - 1, by omega⟩
      rw [gpiLoop_cons, gpiLoop_cons]
      have hd : d.netAmount < 0 := hds d (by simp)
      have hc : 0 < c.netAmount := hcs c (by simp)
      have hds0 : ∀ b ∈ ds0, b.netAmount < 0 := fun b hb => hds b (by simp [hb])
      have hcs0 : ∀ b ∈ cs0, 0 < b.netAmount := fun b hb => hcs b (by simp [hb])
      have hds' : ∀ b ∈ (if |d.netAmount + min |d.netAmount| c.netAmount| < 1 / 100 then ds0
          else { d with netAmount := d.netAmount + min |d.netAmount| c.netAmount } :: ds0),
          b.netAmount < 0 := by
        split
        · exact hds0
        · rename_i hkeep
          intro b hb
          rcases List.mem_cons.mp hb with rfl | hb
          · have h1 := gpi_dNet_nonpos d c hd
            have h2 : d.netAmount + min |d.netAmount| c.netAmount ≠ 0 := by
              intro h0
              apply hkeep
              rw [h0]
              norm_num
            show d.netAmount + min |d.netAmount| c.netAmount < 0
            rcases lt_or_eq_of_le h1 with h | h
            · exact h
            · exact absurd h h2
          · exact hds0 b hb
      have hcs' : ∀ b ∈ (if |c.netAmount - min |d.netAmount| c.netAmount| < 1 / 100 then cs0
          else { c with netAmount := c.netAmount - min |d.netAmount| c.netAmount } :: cs0),
          0 < b.netAmount := by
        split
        · exact hcs0
        · rename_i hkeep
          intro b hb
          rcases List.mem_cons.mp hb with rfl | hb
          · have h1 := gpi_cNet_nonneg d c
            have h2 : c.netAmount - min |d.netAmount| c.netAmount ≠ 0 := by
              intro h0
              apply hkeep
              rw [h0]
              norm_num
            show 0 < c.netAmount - min |d.netAmount| c.netAmount
            rcases lt_or_eq_of_le h1 with h | h
            · exact h
            · exact absurd h.symm h2
          · exact hcs0 b hb
      have habs0 : |(0 : ℚ)| < 1 / 100 := by norm_num
      have hprog : (if |d.netAmount + min |d.netAmount| c.netAmount| < 1 / 100 then ds0
            else { d with netAmount := d.netAmount + min |d.netAmount| c.netAmount } :: ds0).length
          + (if |c.netAmount - min |d.netAmount| c.netAmount| < 1 / 100 then cs0
            else { c with netAmount := c.netAmount - min |d.netAmount| c.netAmount } :: cs0).length
          ≤ ds0.length + cs0.length + 1 := by
        rcases gpi_min_cancel d c hd hc with h0 | h0
        · rw [h0, if_pos habs0]
          split
          · omega
          · rw [List.length_cons]
            omega
        · rw [h0, if_pos habs0]
          split
          · omega
          · rw [List.length_cons]
            omega
      have hlen' : ds0.length + cs0.length + 2 ≤ n + 1 := by
        have h := hlen
        simp only [List.length_cons] at h
        omega
      congr 1
      exact (ih (f) _ _ hds' hcs' (by omega) (by omega)).trans
        (ih n _ _ hds' hcs' (by omega) (by omega)).symm

theorem gpiLoop_length_le :
    ∀ (fuel : ℕ) (ds cs : List ParticipantBalance),
      (∀ b ∈ ds, b.netAmount < 0) → (∀ b ∈ cs, 0 < b.netAmount) →
      (gpiLoop fuel ds cs).length + 1 ≤ ds.length + cs.length
      ∨ gpiLoop fuel ds cs = [] := by
  intro fuel
  induction fuel with
  | zero => intro ds cs _ _; right; rfl
  | succ fuel ih =>
    intro ds cs hds hcs
    match ds, cs with
    | [], cs => right; rw [gpiLoop_nil_left]
    | d :: ds0, [] => right; rw [gpiLoop_nil_right]
    | d :: ds0, c :: cs0 =>
      left
      rw [gpiLoop_cons]
      have hd : d.netAmount < 0 := hds d (by simp)
      have hc : 0 < c.netAmount := hcs c (by simp)
      have hds0 : ∀ b ∈ ds0, b.netAmount < 0 := fun b hb => hds b (by simp [hb])
      have hcs0 : ∀ b ∈ cs0, 0 < b.netAmount := fun b hb => hcs b (by simp [hb])
      have hds' : ∀ b ∈ (if |d.netAmount + min |d.netAmount| c.netAmount| < 1 / 100 then ds0
          else { d with netAmount := d.netAmount + min |d.netAmount| c.netAmount } :: ds0),
          b.netAmount < 0 := by
        split
        · exact hds0
        · rename_i hkeep
          intro b hb
          rcases List.mem_cons.mp hb with rfl | hb
          · have h1 := gpi_dNet_nonpos d c hd
            have h2 : d.netAmount + min |d.netAmount| c.netAmount ≠ 0 := by
              intro h0
              apply hkeep
              rw [h0]
              norm_num
            show d.netAmount + min |d.netAmount| c.netAmount < 0
            rcases lt_or_eq_of_le h1 with h | h
            · exact h
            · exact absurd h h2
          · exact hds0 b hb
      have hcs' : ∀ b ∈ (if |c.netAmount - min |d.netAmount| c.netAmount| < 1 / 100 then cs0
          else { c with netAmount := c.netAmount - min |d.netAmount| c.netAmount } :: cs0),
          0 < b.netAmount := by
        split
        · exact hcs0
        · rename_i hkeep
          intro b hb
          rcases List.mem_cons.mp hb with rfl | hb
          · have h1 := gpi_cNet_nonneg d c
            have h2 : c.netAmount - min |d.netAmount| c.netAmount ≠ 0 := by
              intro h0
              apply hkeep
              rw [h0]
              norm_num
            show 0 < c.netAmount - min |d.netAmount| c.netAmount
            rcases lt_or_eq_of_le h1 with h | h
            · exact h
            · exact absurd h.symm h2
          · exact hcs0 b hb
      have habs0 : |(0 : ℚ)| < 1 / 100 := by norm_num
      have hprog : (if |d.netAmount + min |d.netAmount| c.netAmount| < 1 / 100 then ds0
            else { d with netAmount := d.netAmount + min |d.netAmount| c.netAmount } :: ds0).length
          + (if |c.netAmount - min |d.netAmount| c.netAmount| < 1 / 100 then cs0
            else { c with netAmount := c.netAmount - min |d.netAmount| c.netAmount } :: cs0).length
          ≤ ds0.length + cs0.length + 1 := by
        rcases gpi_min_cancel d c hd hc with h0 | h0
        · rw [h0, if_pos habs0]
          split
          · omega
          · rw [List.length_cons]
            omega
        · rw [h0, if_pos habs0]
          split
          · omega
          · rw [List.length_cons]
            omega
      rcases ih _ _ hds' hcs' with h | h
      · rw [List.length_cons, List.length_cons, List.length_cons]
        omega
      · rw [h]
        simp only [List.length_cons, List.length_nil]
        omega

theorem filter_sign_length_le (l : List ParticipantBalance) :
    (l.filter (fun b => b.netAmount < 0)).length
      + (l.filter (fun b => 0 < b.netAmount)).length ≤ l.length := by
  induction l with
  | nil => simp
  | cons b bs ih =>
    rw [List.filter_cons, List.filter_cons]
    by_cases h1 : b.netAmount < 0
    · have h2 : ¬ 0 < b.netAmount := by linarith
      simp [h1, h2]
      omega
    · by_cases h2 : 0 < b.netAmount
      · simp [h1, h2]
        omega
      · simp [h1, h2]
        omega

theorem mem_filter_neg_net {l : List ParticipantBalance} {b : ParticipantBalance}
    (hb : b ∈ l.filter (fun b => b.netAmount < 0)) : b.netAmount < 0 := by
  have h := (List.mem_filter.mp hb).2
  simpa using h

theorem mem_filter_pos_net {l : List ParticipantBalance} {b : ParticipantBalance}
    (hb : b ∈ l.filter (fun b => 0 < b.netAmount)) : 0 < b.netAmount := by
  have h := (List.mem_filter.mp hb).2
  simpa using h

theorem calculateSession_participants_length (cfg : TaxConfig) (s : Session) :
    ((calculateSession cfg s).participants).length = s.participants.length := by
  unfold calculateSession
  split
  · simp [createEmptyResult]
  · simp

/-- C7: the settlement matching loop terminates on every input balance
list — fuel `debtors.length + creditors.length` is always sufficient,
adding any further fuel does not change the result — and, fed the
balances produced by `calculateSession` (under any tax configuration),
it emits at most `participants.length - 1` transfers. -/
theorem c7_termination_and_transfer_bound :
    (∀ (balances : List ParticipantBalance) (extra : ℕ),
        gpiLoop
          ((balances.filter (fun b => b.netAmount < 0)).length
            + (balances.filter (fun b => 0 < b.netAmount)).length + extra)
          (balances.filter (fun b => b.netAmount < 0))
          (balances.filter (fun b => 0 < b.netAmount))
          = generatePaymentInstructions balances)
    ∧ ∀ (cfg : TaxConfig) (s : Session),
        (generatePaymentInstructions ((calculateSession cfg s).participants)).length
          ≤ s.participants.length - 1 := by
  constructor
  · intro balances extra
    exact gpiLoop_fuel_stable
      ((balances.filter (fun b => b.netAmount < 0)).length
        + (balances.filter (fun b => 0 < b.netAmount)).length)
      ((balances.filter (fun b => b.netAmount < 0)).length
        + (balances.filter (fun b => 0 < b.netAmount)).length + extra)
      (balances.filter (fun b => b.netAmount < 0))
      (balances.filter (fun b => 0 < b.netAmount))
      (fun _ hb => mem_filter_neg_net hb) (fun _ hb => mem_filter_pos_net hb)
      le_rfl (by omega)
  · intro cfg s
    have hgpi : generatePaymentInstructions ((calculateSession cfg s).participants)
        = gpiLoop
          ((((calculateSession cfg s).participants).filter
              (fun b => b.netAmount < 0)).length
            + (((calculateSession cfg s).participants).filter
                (fun b => 0 < b.netAmount)).length)
          (((calculateSession cfg s).participants).filter (fun b => b.netAmount < 0))
          (((calculateSession cfg s).participants).filter (fun b => 0 < b.netAmount)) := rfl
    rw [hgpi]
    have hlen := filter_sign_length_le ((calculateSession cfg s).participants)
    have hplen := calculateSession_participants_length cfg s
    rcases gpiLoop_length_le
        ((((calculateSession cfg s).participants).filter
            (fun b => b.netAmount < 0)).length
          + (((calculateSession cfg s).participants).filter
              (fun b => 0 < b.netAmount)).length)
        (((calculateSession cfg s).participants).filter (fun b => b.netAmount < 0))
        (((calculateSession cfg s).participants).filter (fun b => 0 < b.netAmount))
        (fun _ hb => mem_filter_neg_net hb) (fun _ hb => mem_filter_pos_net hb)
      with h | h
    · omega
    · rw [h]
      simp

/-- C1 (evaluating the code at the failing input): on balances with
`netAmount = +5` (Ada, who owes the group) and `netAmount = -5` (Ben,
whom the group owes), `generatePaymentInstructions` classifies Ben as
the debtor and emits the single transfer from Ben to Ada — i.e. the
emitted transfer's `from` has negative `netAmount` and its `to` has
positive `netAmount`, the opposite of the claim's partition. -/
theorem c1_settlement_direction_eval :
    generatePaymentInstructions [posBalance, negBalance] = [⟨"Ben", "Ada", 5⟩]
    ∧ negBalance.netAmount < 0 ∧ 0 < posBalance.netAmount := by
  refine ⟨?_, by norm_num [negBalance], by norm_num [posBalance]⟩
  norm_num +decide [generatePaymentInstructions, gpiLoop, posBalance, negBalance,
    balanceName, roundToTwoDecimals, round_eq, List.filter_cons]

/-- C2 (evaluating the code at the failing input): in `gapSession`
(participants P1 and P2, one RM100 item paid by P1 and shared only by
P1) under the default configuration (`applyServiceChargeToAll = true`,
item service charge RM10), the non-sharing participant P2 is charged no
service-charge share at all — its contribution record is all-zero and
its `totalOwed` is 0, not 10/2 = 5 as the venue-wide rule requires. -/
theorem c2_service_charge_gap_eval :
    DEFAULT_TAX_CONFIG.applyServiceChargeToAll = true
    ∧ calculateServiceCharge DEFAULT_TAX_CONFIG gapItem.totalAmount = 10
    ∧ (calculateItemContribution DEFAULT_TAX_CONFIG gapP2 gapItem 2).serviceChargeContribution
        = 0
    ∧ ((calculateSession DEFAULT_TAX_CONFIG gapSession).participants.map
        (fun b => b.totalOwed)) = [105, 0] := by
  refine ⟨rfl, ?_, ?_, ?_⟩
  · norm_num [calculateServiceCharge, roundToTwoDecimals, round_eq, DEFAULT_TAX_CONFIG,
      gapItem]
  · norm_num +decide [calculateItemContribution, gapP2, gapItem, sstTruthy,
      calculateServiceCharge, roundToTwoDecimals, round_eq, DEFAULT_TAX_CONFIG]
  · norm_num +decide [calculateSession, calculateParticipantBalance, balStep,
      calculateItemContribution, paidCredit, calculateServiceCharge, sstTruthy,
      roundToTwoDecimals, round_eq, DEFAULT_TAX_CONFIG, createEmptyResult,
      calculateSummary, List.foldl, gapSession, gapP1, gapP2, gapItem]

/-- C3 (evaluating the code at the failing input): in `gapSession` the
balances returned by `calculateSession` have `sum totalOwed = 105` but
`sum totalPaid = 110` and `sum netAmount = -5`, so both invariants fail
beyond the ±0.01 tolerance. -/
theorem c3_invariant_violation_eval :
    (((calculateSession DEFAULT_TAX_CONFIG gapSession).participants.map
        (fun b => b.totalOwed)).sum = 105)
    ∧ (((calculateSession DEFAULT_TAX_CONFIG gapSession).participants.map
        (fun b => b.totalPaid)).sum = 110)
    ∧ (((calculateSession DEFAULT_TAX_CONFIG gapSession).participants.map
        (fun b => b.netAmount)).sum = -5)
    ∧ 1 / 100 < |(105 : ℚ) - 110|
    ∧ 1 / 100 < |(-5 : ℚ)|
    ∧ validateCalculation (calculateSession DEFAULT_TAX_CONFIG gapSession) = false := by
  refine ⟨?_, ?_, ?_, by rw [show |(105 : ℚ) - 110| = 5 by rw [show (105 : ℚ) - 110 = -5 by norm_num, abs_neg, abs_of_pos] <;> norm_num]; norm_num,
    by rw [abs_neg, abs_of_pos] <;> norm_num, ?_⟩ <;>
  norm_num +decide [calculateSession, calculateParticipantBalance, balStep,
    calculateItemContribution, paidCredit, calculateServiceCharge, sstTruthy,
    roundToTwoDecimals, round_eq, DEFAULT_TAX_CONFIG, createEmptyResult,
    calculateSummary, List.foldl, gapSession, gapP1, gapP2, gapItem,
    validateCalculation]

/-- C4 counterexample: on the end-to-end scenario `calculateSession`
(the split engine of the calculations module, default configuration)
returns `totalPaid = [33, 17.40, 0]` — Alice's paid amount is 33 (her
RM30 item plus its RM3 service charge), not the claimed 30. -/
theorem c4_counterexample :
    ((calculateSession DEFAULT_TAX_CONFIG endToEndSession).participants.map
        (fun b => b.totalPaid)) = [33, 174 / 10, 0]
    ∧ (33 : ℚ) ≠ 30 := by
  constructor
  · norm_num +decide [calculateSession, calculateParticipantBalance, balStep,
      calculateItemContribution, paidCredit, calculateServiceCharge, sstTruthy,
      roundToTwoDecimals, round_eq, DEFAULT_TAX_CONFIG, createEmptyResult,
      calculateSummary, List.foldl, endToEndSession, alice, bob, charlie, pizza, drinks]
  · norm_num

/-- C4 (amended): on the end-to-end scenario the `BillCalculator` split
engine returns Alice `(paid, owed, net) = (33, 11, -22)`, Bob
`(17.40, 19.45, 2.05)`, Charlie `(0, 19.45, 19.45)`; the claimed values
— Alice `paid 30, owes 10, gets back 20`; Bob `15.90, 17.95, -2.05`;
Charlie `0, 17.95, -17.95` — are produced by the legacy SST-only
balance path `getParticipantBalances` in `SessionPage.tsx`, whose
`balance` is `paid - owes` (positive = gets money back). -/
theorem c4_amended :
    ((calculateSession DEFAULT_TAX_CONFIG endToEndSession).participants.map
        (fun b => (b.totalPaid, b.totalOwed, b.netAmount)))
      = [(33, 11, -22), (174 / 10, 1945 / 100, 205 / 100), (0, 1945 / 100, 1945 / 100)]
    ∧ ((getParticipantBalances [alice, bob, charlie] [pagePizza, pageDrinks]).map
        (fun b => (b.paid, b.owes, b.balance)))
      = [(30, 10, 20), (159 / 10, 1795 / 100, -205 / 100), (0, 1795 / 100, -1795 / 100)] := by
  constructor
  · norm_num +decide [calculateSession, calculateParticipantBalance, balStep,
      calculateItemContribution, paidCredit, calculateServiceCharge, sstTruthy,
      roundToTwoDecimals, round_eq, DEFAULT_TAX_CONFIG, createEmptyResult,
      calculateSummary, List.foldl, endToEndSession, alice, bob, charlie, pizza, drinks]
  · norm_num +decide [getParticipantBalances, pageItemTotal, roundToTwoDecimals, round_eq,
      alice, bob, charlie, pagePizza, pageDrinks, List.filter_cons, beq_iff_eq]

/-- C8: an item with an empty `sharedBy` yields the all-zero
contribution for every participant (the `|sharedBy|` divisor is behind
the `sharedBy.includes` guard and is never reached), so appending such
an item to a session's item list leaves every participant's `totalOwed`
unchanged. -/
theorem c8_empty_sharedBy (cfg : TaxConfig) (p : Participant) (item : BillItem)
    (totalParticipants : ℕ) (items : List BillItem) (h : item.sharedBy = []) :
    calculateItemContribution cfg p item totalParticipants
        = ⟨item.id, item.name, 0, 0, 0⟩
    ∧ (calculateParticipantBalance cfg p (items ++ [item]) totalParticipants).totalOwed
        = (calculateParticipantBalance cfg p items totalParticipants).totalOwed := by
  have hcontrib : calculateItemContribution cfg p item totalParticipants
      = ⟨item.id, item.name, 0, 0, 0⟩ := by
    unfold calculateItemContribution
    rw [h]
    rfl
  refine ⟨hcontrib, ?_⟩
  unfold calculateParticipantBalance
  rw [List.foldl_append, List.foldl_cons, List.foldl_nil]
  unfold balStep
  rw [hcontrib]
  norm_num

/-- Witness for `c8_empty_sharedBy` at the concrete item `orphanItem`
(empty `sharedBy`) in a session that also contains `gapItem`. -/
theorem c8_empty_sharedBy_witness :
    calculateItemContribution DEFAULT_TAX_CONFIG gapP1 orphanItem 2
        = ⟨"i2", "Orphan", 0, 0, 0⟩
    ∧ (calculateParticipantBalance DEFAULT_TAX_CONFIG gapP1 ([gapItem] ++ [orphanItem]) 2).totalOwed
        = (calculateParticipantBalance DEFAULT_TAX_CONFIG gapP1 [gapItem] 2).totalOwed :=
  c8_empty_sharedBy DEFAULT_TAX_CONFIG gapP1 orphanItem 2 [gapItem] rfl

/-- C9: the split engine never recomputes SST from `totalAmount` — when
an item has `hasSst = true` but its stored `sstAmount` is absent or 0,
the sharer's SST contribution is 0 and the payer's credit is just
`totalAmount` plus the service charge, with no SST term. -/
theorem c9_stored_sst_only (cfg : TaxConfig) (p : Participant) (item : BillItem)
    (totalParticipants : ℕ) (_hs : item.hasSst = true)
    (hz : item.sstAmount = none ∨ item.sstAmount = some 0) :
    (calculateItemContribution cfg p item totalParticipants).sstContribution = 0
    ∧ paidCredit cfg p item
        = (if item.paidBy == p.id then
            item.totalAmount + calculateServiceCharge cfg item.totalAmount
          else 0) := by
  have ht : sstTruthy item.sstAmount = false := by
    rcases hz with h | h <;> simp [h, sstTruthy]
  constructor
  · unfold calculateItemContribution
    rw [ht]
    split <;> simp
  · unfold paidCredit
    by_cases hp : (item.paidBy == p.id) = true <;> simp [hp, ht]

/-- Witness for `c9_stored_sst_only` at `sstZeroItem`
(`hasSst = true`, stored `sstAmount = 0`). -/
theorem c9_stored_sst_only_witness :
    (calculateItemContribution DEFAULT_TAX_CONFIG gapP1 sstZeroItem 2).sstContribution = 0
    ∧ paidCredit DEFAULT_TAX_CONFIG gapP1 sstZeroItem
        = (if sstZeroItem.paidBy == gapP1.id then
            sstZeroItem.totalAmount
              + calculateServiceCharge DEFAULT_TAX_CONFIG sstZeroItem.totalAmount
          else 0) :=
  c9_stored_sst_only DEFAULT_TAX_CONFIG gapP1 sstZeroItem 2 rfl (Or.inr rfl)

theorem gpiLoopST_nil_left (fuel : ℕ) (σ : Store) (cas : List ℕ) :
    gpiLoopST fuel σ [] cas = ([], σ) := by
  cases fuel <;> cases cas <;> rfl

theorem gpiLoopST_nil_right (fuel : ℕ) (σ : Store) (das : List ℕ) :
    gpiLoopST fuel σ das [] = ([], σ) := by
  cases fuel <;> cases das <;> rfl

theorem gpiLoopST_frame :
    ∀ (fuel : ℕ) (σ : Store) (das cas : List ℕ) (N : ℕ),
      (∀ a ∈ das, N ≤ a) → (∀ a ∈ cas, N ≤ a) →
      ∀ j, j < N → ((gpiLoopST fuel σ das cas).2)[j]? = σ[j]? := by
  intro fuel
  induction fuel with
  | zero => intro σ das cas N _ _ j _; rfl
  | succ fuel ih =>
    intro σ das cas N hdas hcas j hj
    match das, cas with
    | [], cas => rw [gpiLoopST_nil_left]
    | da :: das0, [] => rw [gpiLoopST_nil_right]
    | da :: das0, ca :: cas0 =>
      have hda : N ≤ da := hdas da (by simp)
      have hca : N ≤ ca := hcas ca (by simp)
      have hdas0 : ∀ a ∈ das0, N ≤ a := fun a ha => hdas a (by simp [ha])
      have hcas0 : ∀ a ∈ cas0, N ≤ a := fun a ha => hcas a (by simp [ha])
      show ((gpiLoopST fuel
          (setNet (setNet σ da ((σ.getD da default).netAmount
              + min |(σ.getD da default).netAmount| (σ.getD ca default).netAmount))
            ca ((σ.getD ca default).netAmount
              - min |(σ.getD da default).netAmount| (σ.getD ca default).netAmount))
          (if |(σ.getD da default).netAmount
                + min |(σ.getD da default).netAmount| (σ.getD ca default).netAmount| < 1 / 100
            then das0 else da :: das0)
          (if |(σ.getD ca default).netAmount
                - min |(σ.getD da default).netAmount| (σ.getD ca default).netAmount| < 1 / 100
            then cas0 else ca :: cas0)).2)[j]? = σ[j]?
      have hdas' : ∀ a ∈ (if |(σ.getD da default).netAmount
            + min |(σ.getD da default).netAmount| (σ.getD ca default).netAmount| < 1 / 100
          then das0 else da :: das0), N ≤ a := by
        split
        · exact hdas0
        · intro a ha
          rcases List.mem_cons.mp ha with rfl | ha
          · exact hda
          · exact hdas0 a ha
      have hcas' : ∀ a ∈ (if |(σ.getD ca default).netAmount
            - min |(σ.getD da default).netAmount| (σ.getD ca default).netAmount| < 1 / 100
          then cas0 else ca :: cas0), N ≤ a := by
        split
        · exact hcas0
        · intro a ha
          rcases List.mem_cons.mp ha with rfl | ha
          · exact hca
          · exact hcas0 a ha
      rw [ih _ _ _ N hdas' hcas' j hj]
      have h1 : da ≠ j := by omega
      have h2 : ca ≠ j := by omega
      rw [setNet, setNet, List.getElem?_set_ne h2, List.getElem?_set_ne h1]

/-- C10: `generatePaymentInstructions` does not modify its input — in
the store-passing embedding `generatePaymentInstructionsST`, where the
`filter(...).map(b => ({ ...b }))` copies are allocated at fresh
addresses and the matching loop mutates only those copies, every store
cell below the original store length (in particular every balance
object of the input array) is unchanged by the call. -/
theorem c10_no_input_mutation (σ : Store) (addrs : List ℕ) (j : ℕ) (hj : j < σ.length) :
    ((generatePaymentInstructionsST σ addrs).2)[j]? = σ[j]? := by
  simp only [generatePaymentInstructionsST]
  refine (gpiLoopST_frame _ _ _ _ σ.length ?_ ?_ j hj).trans ?_
  · intro a ha
    simp only [List.mem_map, List.mem_range] at ha
    obtain ⟨i, _, rfl⟩ := ha
    omega
  · intro a ha
    simp only [List.mem_map, List.mem_range] at ha
    obtain ⟨i, _, rfl⟩ := ha
    omega
  · rw [List.getElem?_append_left (by rw [List.length_append]; omega),
      List.getElem?_append_left hj]

/-- Witness for `c10_no_input_mutation` on the concrete two-element
store `[posBalance, negBalance]` with both addresses passed in. -/
theorem c10_no_input_mutation_witness :
    (0 : ℕ) < ([posBalance, negBalance] : Store).length
    ∧ ((generatePaymentInstructionsST [posBalance, negBalance] [0, 1]).2)[0]?
        = ([posBalance, negBalance] : Store)[0]? :=
  ⟨by norm_num, c10_no_input_mutation [posBalance, negBalance] [0, 1] 0 (by norm_num)⟩
